import Mathlib

/-!
Verification of the client-side progress synchronization core of the
goat-scraper repository, a shallow embedding of
src/frontend/components/use-progress-sync.tsx and the study-cart item
shape of src/frontend/components/study-cart-provider.tsx.

Modelling conventions:
* the browser localStorage is an association list from keys to string
  values, read through Store.get and written through Store.set;
* JSON.parse is an external runtime facility, so the two parses the
  client performs, of the course-progress value and of the study-cart
  value, are supplied as an injected codec returning none where the
  parse would throw;
* JavaScript truthiness tests on strings are modelled explicitly: a
  string value is falsy exactly when it is empty, an absent value is
  falsy;
* the WebSocket handle is modelled by its ready state, and each event
  handler and each exposed callback of the hook becomes one Lean
  function from client state to client state plus the list of frames
  it sends.
-/

/-- Entry of a leaderboard received from the server, mirroring the
LeaderboardEntry interface of use-progress-sync.tsx. The numeric
percentage is modelled as a rational. -/
structure LeaderboardEntry where
  userId : String
  username : String
  completed : Nat
  total : Nat
  percentage : Rat
  lastUpdate : String
deriving DecidableEq

/-- Queued incremental progress signal, mirroring the ProgressUpdate
interface of use-progress-sync.tsx. -/
structure ProgressUpdate where
  courseId : String
  fileKey : String
  isComplete : Bool
deriving DecidableEq

/-- Parsed course-progress value: per course, per-file completion
flags. The client treats the parsed value opaquely and forwards it. -/
abbrev ProgressVal := List (String × List (String × Bool))

/-- Study items map sent in a full sync: association list from course
id to the file keys collected from the cart, in insertion order,
mirroring the plain-object accumulator of the source. -/
abbrev StudyItemsMap := List (String × List String)

/-- Item of the persisted study cart, mirroring the StudyItem
interface of study-cart-provider.tsx; courseId and fileKey are the
optional linkage fields the sync code reads. -/
structure StudyItem where
  id : String
  url : String
  title : String
  courseName : String
  unitNumber : Nat
  courseId : Option String := none
  fileKey : Option String := none
deriving DecidableEq

/-- Outbound client-to-server frames, one constructor per message type
the client sends in use-progress-sync.tsx. -/
inductive ClientMsg where
  | setUsernameMsg (username : String)
  | syncFullProgressMsg (progress : ProgressVal) (studyItems : StudyItemsMap) (username : String)
  | requestLeaderboardMsg (courseId : String)
  | syncStudyItemsMsg (courseId : String) (fileKeys : List String)
  | progressUpdateMsg (courseId : String) (fileKey : String) (isComplete : Bool) (username : String)
deriving DecidableEq

/-- Recognizer for full-sync frames. -/
def ClientMsg.isSyncFull : ClientMsg → Bool
  | ClientMsg.syncFullProgressMsg _ _ _ => true
  | _ => false

/-- Recognizer for leaderboard-request frames. -/
def ClientMsg.isRequestLeaderboard : ClientMsg → Bool
  | ClientMsg.requestLeaderboardMsg _ => true
  | _ => false

/-- Recognizer for incremental progress-update frames. -/
def ClientMsg.isProgressUpdate : ClientMsg → Bool
  | ClientMsg.progressUpdateMsg _ _ _ _ => true
  | _ => false

/-- Parsed inbound server-to-client frames; none at the call site
models an unparseable payload, and otherType models any parsed frame
whose type field is neither leaderboard update nor the connect
acknowledgement. -/
inductive InboundData where
  | leaderboardUpdate (courseId : String) (leaderboard : List LeaderboardEntry)
  | connectedAck
  | otherType (t : String)
deriving DecidableEq

/-- The persisted local store: association list from localStorage keys
to string values. -/
abbrev Store := List (String × String)

/-- Read of a key, mirroring localStorage.getItem which returns null
for an absent key. -/
def Store.get (s : Store) (k : String) : Option String :=
  (List.find? (fun kv => kv.1 == k) s).map (fun kv => kv.2)

/-- Write of a key, mirroring localStorage.setItem which overwrites an
existing value. -/
def Store.set (s : Store) (k v : String) : Store :=
  match s with
  | [] => [(k, v)]
  | (k0, v0) :: rest =>
    if k0 == k then (k, v) :: rest else (k0, v0) :: Store.set rest k v

/-- Injected JSON codec: parseProgress and parseCart stand for the two
JSON.parse calls of the sync code, returning none where JSON.parse
would throw. -/
structure JsonCodec where
  parseProgress : String → Option ProgressVal
  parseCart : String → Option (List StudyItem)

/-- Push of a file key under a course id in the plain-object
accumulator of the sync code: appends to the list of an existing key,
otherwise adds the key at the end, preserving insertion order as a
JavaScript object does. -/
def insertStudyItem : StudyItemsMap → String → String → StudyItemsMap
  | [], c, f => [(c, [f])]
  | (k, fs) :: rest, c, f =>
    if k == c then (k, fs ++ [f]) :: rest
    else (k, fs) :: insertStudyItem rest c f

/-- One step of the study-items accumulation loop of the sync code: an
item contributes exactly when both of its optional linkage fields are
present and truthy, that is, nonempty strings. -/
def studyItemsStep (m : StudyItemsMap) (item : StudyItem) : StudyItemsMap :=
  match item.courseId, item.fileKey with
  | some c, some f =>
    if c ≠ "" ∧ f ≠ "" then insertStudyItem m c f else m
  | _, _ => m

/-- Study items map built from the parsed cart, as the forEach loop of
the sync code builds it. -/
def buildStudyItems (items : List StudyItem) : StudyItemsMap :=
  items.foldl studyItemsStep []

/-- Payload construction of the on-connect sync, transliterating the
body of ws.onopen: read the persisted progress and cart, and when the
progress value is present and truthy and every performed parse
succeeds, produce the full-sync frame; otherwise produce nothing. The
username argument is the in-memory username captured by the handler. -/
def onConnectPayload (cfg : JsonCodec) (store : Store) (username : String) :
    Option ClientMsg :=
  let storedProgress := Store.get store "course-progress"
  let storedCart := Store.get store "study-cart"
  match storedProgress with
  | none => none
  | some rawProgress =>
    if rawProgress = "" then none
    else
      match cfg.parseProgress rawProgress with
      | none => none
      | some progress =>
        match storedCart with
        | none => some (ClientMsg.syncFullProgressMsg progress [] username)
        | some rawCart =>
          if rawCart = "" then
            some (ClientMsg.syncFullProgressMsg progress [] username)
          else
            match cfg.parseCart rawCart with
            | none => none
            | some cartItems =>
              some (ClientMsg.syncFullProgressMsg progress
                (buildStudyItems cartItems) username)

/-- Payload construction of the periodic thirty-second sync,
transliterating the body of the syncInterval callback, which repeats
the same reads, parses and frame construction as the on-connect
sync. -/
def periodicSyncPayload (cfg : JsonCodec) (store : Store) (username : String) :
    Option ClientMsg :=
  let storedProgress := Store.get store "course-progress"
  let storedCart := Store.get store "study-cart"
  match storedProgress with
  | none => none
  | some rawProgress =>
    if rawProgress = "" then none
    else
      match cfg.parseProgress rawProgress with
      | none => none
      | some progress =>
        match storedCart with
        | none => some (ClientMsg.syncFullProgressMsg progress [] username)
        | some rawCart =>
          if rawCart = "" then
            some (ClientMsg.syncFullProgressMsg progress [] username)
          else
            match cfg.parseCart rawCart with
            | none => none
            | some cartItems =>
              some (ClientMsg.syncFullProgressMsg progress
                (buildStudyItems cartItems) username)

/-- Payload construction of the change-triggered sync, transliterating
the body of handleStorageChange after its key test, which again
repeats the same reads, parses and frame construction. -/
def changeSyncPayload (cfg : JsonCodec) (store : Store) (username : String) :
    Option ClientMsg :=
  let storedProgress := Store.get store "course-progress"
  let storedCart := Store.get store "study-cart"
  match storedProgress with
  | none => none
  | some rawProgress =>
    if rawProgress = "" then none
    else
      match cfg.parseProgress rawProgress with
      | none => none
      | some progress =>
        match storedCart with
        | none => some (ClientMsg.syncFullProgressMsg progress [] username)
        | some rawCart =>
          if rawCart = "" then
            some (ClientMsg.syncFullProgressMsg progress [] username)
          else
            match cfg.parseCart rawCart with
            | none => none
            | some cartItems =>
              some (ClientMsg.syncFullProgressMsg progress
                (buildStudyItems cartItems) username)

/-- Ready state of the WebSocket handle held in wsRef. -/
inductive WsReady where
  | connecting
  | opened
  | closedSt
deriving DecidableEq

/-- Client-side state of the hook: the React state cells, the pending
update queue ref, the scheduled reconnect timer ref, and the ready
state of the socket ref, with the initial values of the source. -/
structure ClientState where
  isConnected : Bool := false
  username : String := ""
  userId : Option String := none
  leaderboard : List LeaderboardEntry := []
  pendingUpdates : List ProgressUpdate := []
  reconnectDelayMs : Option Nat := none
  ws : Option WsReady := none
deriving DecidableEq

/-- Guard used before every send: the socket ref is populated and its
ready state is OPEN. -/
def wsIsOpen (s : ClientState) : Bool :=
  s.ws == some WsReady.opened

/-- Handler of ws.onopen: marks the client connected, sends the
on-connect full sync when its payload exists, clears the pending
update queue, and sends one leaderboard request for the active course.
The store is threaded through unchanged since the handler only reads
it. -/
def handleOpen (cfg : JsonCodec) (courseId : String) (store : Store)
    (s : ClientState) : ClientState × Store × List ClientMsg :=
  let s1 : ClientState := { s with isConnected := true, ws := some WsReady.opened }
  let syncMsgs : List ClientMsg :=
    match onConnectPayload cfg store s.username with
    | some m => [m]
    | none => []
  let s2 : ClientState := { s1 with pendingUpdates := [] }
  (s2, store, syncMsgs ++ [ClientMsg.requestLeaderboardMsg courseId])

/-- Handler of ws.onmessage: an unparseable payload is logged and
discarded, a leaderboard update replaces the cached leaderboard
exactly when its course id equals the active course, the connect
acknowledgement and every other parsed frame are ignored. -/
def handleMessage (courseId : String) (s : ClientState)
    (raw : Option InboundData) : ClientState :=
  match raw with
  | none => s
  | some (InboundData.leaderboardUpdate cid lb) =>
    if cid = courseId then { s with leaderboard := lb } else s
  | some InboundData.connectedAck => s
  | some (InboundData.otherType _) => s

/-- Handler of ws.onclose: clears the connected flag and schedules one
reconnection attempt after the fixed three-second delay. -/
def handleClose (s : ClientState) : ClientState :=
  { s with isConnected := false, ws := some WsReady.closedSt,
           reconnectDelayMs := some 3000 }

/-- Body of the connect callback: bails out without an identity; on a
successful constructor call installs a fresh connecting socket; when
the constructor throws, the catch branch only logs and clears the
connected flag, scheduling nothing. The ctorOk flag models whether the
WebSocket constructor succeeds. -/
def connectAttempt (ctorOk : Bool) (s : ClientState) : ClientState :=
  match s.userId with
  | none => s
  | some uid =>
    if uid = "" then s
    else if ctorOk then { s with ws := some WsReady.connecting }
    else { s with isConnected := false }

/-- Firing of the scheduled reconnect timer: consumes the timer and
runs the connect callback. -/
def fireReconnectTimer (ctorOk : Bool) (s : ClientState) : ClientState :=
  match s.reconnectDelayMs with
  | none => s
  | some _ => connectAttempt ctorOk { s with reconnectDelayMs := none }

/-- Handler of the browser online event: reconnects immediately when
not currently connected. -/
def handleOnline (ctorOk : Bool) (s : ClientState) : ClientState :=
  if s.isConnected then s else connectAttempt ctorOk s

/-- Events driving the connection manager: socket lifecycle events,
inbound frames, the reconnect timer firing, and browser connectivity
signals. The error event handler of the source only logs. -/
inductive Event where
  | openEvt
  | closeEvt
  | errorEvt
  | messageEvt (raw : Option InboundData)
  | reconnectTimer (ctorOk : Bool)
  | onlineEvt (ctorOk : Bool)

/-- One step of the connection manager on one event, returning the new
state and the frames sent during the step. -/
def step (cfg : JsonCodec) (courseId : String) (store : Store) (e : Event)
    (s : ClientState) : ClientState × List ClientMsg :=
  match e with
  | Event.openEvt =>
    let r := handleOpen cfg courseId store s
    (r.1, r.2.2)
  | Event.closeEvt => (handleClose s, [])
  | Event.errorEvt => (s, [])
  | Event.messageEvt raw => (handleMessage courseId s raw, [])
  | Event.reconnectTimer ctorOk => (fireReconnectTimer ctorOk s, [])
  | Event.onlineEvt ctorOk => (handleOnline ctorOk s, [])

/-- Run of the connection manager over a list of events, keeping the
resulting state. -/
def run (cfg : JsonCodec) (courseId : String) (store : Store)
    (s : ClientState) (evts : List Event) : ClientState :=
  evts.foldl (fun st e => (step cfg courseId store e st).1) s

/-- Exposed sendProgressUpdate callback: when the socket is open the
incremental frame is sent with the in-memory username attached,
otherwise the update is appended to the pending queue. -/
def sendProgressUpdate (courseId : String) (s : ClientState)
    (fileKey : String) (isComplete : Bool) : ClientState × List ClientMsg :=
  let update : ProgressUpdate :=
    { courseId := courseId, fileKey := fileKey, isComplete := isComplete }
  if wsIsOpen s then
    (s, [ClientMsg.progressUpdateMsg courseId fileKey isComplete s.username])
  else
    ({ s with pendingUpdates := s.pendingUpdates ++ [update] }, [])

/-- Exposed requestLeaderboardUpdate callback: sends only when the
socket is open and the course id is truthy, otherwise does nothing. -/
def requestLeaderboardUpdate (courseId : String) (s : ClientState) :
    ClientState × List ClientMsg :=
  if wsIsOpen s ∧ courseId ≠ "" then
    (s, [ClientMsg.requestLeaderboardMsg courseId])
  else (s, [])

/-- Exposed syncStudyItems callback: sends only when the socket is
open and the course id is truthy, otherwise does nothing. -/
def syncStudyItemsCall (courseId : String) (s : ClientState)
    (fileKeys : List String) : ClientState × List ClientMsg :=
  if wsIsOpen s ∧ courseId ≠ "" then
    (s, [ClientMsg.syncStudyItemsMsg courseId fileKeys])
  else (s, [])

/-- Exposed syncFullProgress callback: sends only when the socket is
open, otherwise does nothing. -/
def syncFullProgressCall (s : ClientState) (progress : ProgressVal)
    (studyItems : StudyItemsMap) : ClientState × List ClientMsg :=
  if wsIsOpen s then
    (s, [ClientMsg.syncFullProgressMsg progress studyItems s.username])
  else (s, [])

/-- ECMAScript string trim, modelled structurally on the character
list: whitespace is removed from both ends. -/
def jsTrim (s : String) : String :=
  ⟨(((s.data.dropWhile Char.isWhitespace).reverse.dropWhile
      Char.isWhitespace).reverse)⟩

/-- Exposed updateUsername callback: a name whose trim is empty is
rejected without any effect; otherwise the in-memory username is set,
the name is persisted, and when the socket is open one set-username
frame is sent. -/
def updateUsername (s : ClientState) (store : Store) (newUsername : String) :
    ClientState × Store × List ClientMsg :=
  if jsTrim newUsername = "" then (s, store, [])
  else
    let s1 : ClientState := { s with username := newUsername }
    let store1 := Store.set store "progress-username" newUsername
    if wsIsOpen s1 then (s1, store1, [ClientMsg.setUsernameMsg newUsername])
    else (s1, store1, [])

/-- Adjective pool of the random username generator. -/
def adjectives : List String :=
  ["Swift", "Clever", "Bright", "Keen", "Sharp", "Quick", "Bold", "Calm",
   "Wise", "Agile", "Smart", "Brave", "Cool", "Epic", "Fast", "Great"]

/-- Noun pool of the random username generator. -/
def nouns : List String :=
  ["Panda", "Tiger", "Eagle", "Wolf", "Fox", "Bear", "Lion", "Hawk",
   "Owl", "Falcon", "Lynx", "Jaguar", "Panther", "Dragon", "Phoenix", "Raven"]

/-- Random anonymous username: an adjective, a noun and a number from
one to nine hundred ninety nine; the three random draws are modelled
as natural number parameters reduced modulo the respective ranges. -/
def generateUsername (r1 r2 r3 : Nat) : String :=
  let adj := adjectives.getD (r1 % adjectives.length) ""
  let noun := nouns.getD (r2 % nouns.length) ""
  let num := r3 % 999 + 1
  adj ++ noun ++ toString num

/-- Fresh user id as the source builds it: the user prefix, the
current time, and a random suffix, the latter two modelled as
parameters. -/
def genUserId (now : Nat) (randSuffix : String) : String :=
  "user_" ++ toString now ++ "_" ++ randSuffix

/-- Persistent user id read, transliterating getUserId in a browser
context: a falsy stored value, absent or empty, causes a fresh id to
be generated and persisted, a truthy stored value is returned with the
store untouched. -/
def getUserId (now : Nat) (randSuffix : String) (store : Store) :
    String × Store :=
  match Store.get store "progress-user-id" with
  | some v =>
    if v = "" then
      (genUserId now randSuffix,
       Store.set store "progress-user-id" (genUserId now randSuffix))
    else (v, store)
  | none =>
    (genUserId now randSuffix,
     Store.set store "progress-user-id" (genUserId now randSuffix))

/-- Persistent username read, transliterating getUsername in a browser
context, with the same falsy-regenerate shape as getUserId. -/
def getUsername (r1 r2 r3 : Nat) (store : Store) : String × Store :=
  match Store.get store "progress-username" with
  | some v =>
    if v = "" then
      (generateUsername r1 r2 r3,
       Store.set store "progress-username" (generateUsername r1 r2 r3))
    else (v, store)
  | none =>
    (generateUsername r1 r2 r3,
     Store.set store "progress-username" (generateUsername r1 r2 r3))

/-- JavaScript findIndex over the leaderboard: index of the first
entry satisfying the predicate, minus one when there is none. -/
def jsFindIndexLb (p : LeaderboardEntry → Bool) : List LeaderboardEntry → Int
  | [] => -1
  | e :: rest =>
    if p e then 0
    else if jsFindIndexLb p rest = -1 then -1 else jsFindIndexLb p rest + 1

/-- Raw rank expression of the hook: null without a truthy user id,
otherwise one plus the findIndex of the entry carrying the user
id. -/
def currentUserRankRaw (userId : Option String)
    (l : List LeaderboardEntry) : Option Int :=
  match userId with
  | none => none
  | some uid =>
    if uid = "" then none
    else some (jsFindIndexLb (fun e => e.userId == uid) l + 1)

/-- Exposed currentUserRank: the raw rank filtered to positive values,
everything else becoming null. -/
def currentUserRank (userId : Option String)
    (l : List LeaderboardEntry) : Option Int :=
  match currentUserRankRaw userId l with
  | none => none
  | some r => if r > 0 then some r else none

/-- One firing of the thirty-second periodic sync timer: when the
socket is open, send the periodic payload if it exists; the store is
threaded through unchanged since the callback only reads it. -/
def periodicSyncTick (cfg : JsonCodec) (s : ClientState) (store : Store) :
    Store × List ClientMsg :=
  if wsIsOpen s then
    match periodicSyncPayload cfg store s.username with
    | some m => (store, [m])
    | none => (store, [])
  else (store, [])

/-- One storage change event: only the course-progress and study-cart
keys trigger a sync, and then only while the socket is open; the store
is threaded through unchanged since the callback only reads it. -/
def changeSyncTick (cfg : JsonCodec) (s : ClientState) (store : Store)
    (key : String) : Store × List ClientMsg :=
  if key = "course-progress" ∨ key = "study-cart" then
    if wsIsOpen s then
      match changeSyncPayload cfg store s.username with
      | some m => (store, [m])
      | none => (store, [])
    else (store, [])
  else (store, [])

/-- One firing of the five-second leaderboard poll timer: while the
socket is open it sends one leaderboard request for the active course
and nothing else. -/
def pollTick (courseId : String) (s : ClientState) : List ClientMsg :=
  if wsIsOpen s then [ClientMsg.requestLeaderboardMsg courseId] else []

/-- File keys a given course receives from the cart under the
truthiness rule of the accumulation loop, in cart order. -/
def truthyKeysFor (c : String) (items : List StudyItem) : List String :=
  items.filterMap (fun item =>
    match item.courseId, item.fileKey with
    | some c0, some f =>
      if c0 = c ∧ c0 ≠ "" ∧ f ≠ "" then some f else none
    | _, _ => none)

/-- Lookup of a course in a built study items map. -/
def lookupStudyItems (m : StudyItemsMap) (c : String) : Option (List String) :=
  (List.find? (fun kv => kv.1 == c) m).map (fun kv => kv.2)

/-- Initial client state of the hook. -/
def initClientState : ClientState := {}

/-- Codec whose two parses always fail, standing for stored values
JSON.parse rejects. -/
def cfgNoneCodec : JsonCodec :=
  { parseProgress := fun _ => none, parseCart := fun _ => none }

/-- Concrete one-course progress value used in concrete runs. -/
def progW : ProgressVal := [("cs101", [("f1", true)])]

/-- Codec parsing every progress string to the concrete one-course
value and every cart string to an empty cart. -/
def cfgOneCodec : JsonCodec :=
  { parseProgress := fun _ => some progW, parseCart := fun _ => some [] }

/-- Concrete connected client state used in concrete runs. -/
def connectedStateW : ClientState :=
  { isConnected := true, username := "alice", userId := some "u1",
    ws := some WsReady.opened }

/-- Concrete dropped-connection state holding a scheduled reconnect
timer, used in concrete runs. -/
def droppedStateW : ClientState :=
  { isConnected := false, username := "alice", userId := some "u1",
    reconnectDelayMs := some 3000, ws := some WsReady.closedSt }

/-- Concrete leaderboard entry used in concrete runs. -/
def entryW : LeaderboardEntry :=
  { userId := "u1", username := "alice", completed := 1, total := 2,
    percentage := 50, lastUpdate := "t0" }

/-- Concrete cart item whose linkage fields are both present while the
course id is the empty string, used in concrete runs. -/
def cartItemW : StudyItem :=
  { id := "i1", url := "u", title := "t", courseName := "c",
    unitNumber := 1, courseId := some "", fileKey := some "k1" }

/-- Writing a key and reading it back yields the written value. -/
theorem store_get_set_self (s : Store) (k v : String) :
    Store.get (Store.set s k v) k = some v := by
  induction s with
  | nil => simp [Store.get, Store.set, List.find?]
  | cons kv rest ih =>
    obtain ⟨k0, v0⟩ := kv
    by_cases h : k0 = k
    · simp [Store.set, h, Store.get, List.find?]
    · simp only [Store.set, beq_iff_eq, h, if_false]
      rw [Store.get] at ih ⊢
      rw [List.find?_cons_of_neg]
      · exact ih
      · simp [h]

/-- Generated user ids are nonempty, hence truthy. -/
theorem genUserId_ne_empty (now : Nat) (r : String) : genUserId now r ≠ "" := by
  intro h
  have hlen : (genUserId now r).length = 0 := by rw [h]; rfl
  rw [genUserId, String.length_append, String.length_append,
    String.length_append] at hlen
  have h5 : ("user_").length = 5 := rfl
  rw [h5] at hlen
  omega

/-- Every adjective of the generator pool is a nonempty string. -/
theorem adjectives_len_pos : ∀ s ∈ adjectives, 0 < s.length := by decide

/-- Generated usernames are nonempty, hence truthy. -/
theorem generateUsername_ne_empty (r1 r2 r3 : Nat) :
    generateUsername r1 r2 r3 ≠ "" := by
  intro h
  have hlen : (generateUsername r1 r2 r3).length = 0 := by rw [h]; rfl
  simp only [generateUsername, String.length_append] at hlen
  have hidx : r1 % adjectives.length < adjectives.length :=
    Nat.mod_lt _ (by decide)
  have hmem : adjectives.getD (r1 % adjectives.length) "" ∈ adjectives := by
    rw [List.getD_eq_getElem _ _ hidx]
    exact List.getElem_mem hidx
  have hpos := adjectives_len_pos _ hmem
  omega

/-- A second getUserId call on the store left by a first call returns
the same value and the same store. -/
theorem getUserId_stable (now : Nat) (r : String) (now2 : Nat) (r2 : String)
    (store : Store) :
    getUserId now2 r2 (getUserId now r store).2 = getUserId now r store := by
  cases h : Store.get store "progress-user-id" with
  | none =>
    simp [getUserId, h, store_get_set_self, genUserId_ne_empty now r]
  | some v =>
    by_cases hv : v = ""
    · simp [getUserId, h, hv, store_get_set_self, genUserId_ne_empty now r]
    · simp [getUserId, h, hv]

/-- A second getUsername call on the store left by a first call
returns the same value and the same store. -/
theorem getUsername_stable (a b c a2 b2 c2 : Nat) (store : Store) :
    getUsername a2 b2 c2 (getUsername a b c store).2 =
      getUsername a b c store := by
  cases h : Store.get store "progress-username" with
  | none =>
    simp [getUsername, h, store_get_set_self, generateUsername_ne_empty a b c]
  | some v =>
    by_cases hv : v = ""
    · simp [getUsername, h, hv, store_get_set_self,
        generateUsername_ne_empty a b c]
    · simp [getUsername, h, hv]

/-- C7: a name whose trim is empty leaves updateUsername a complete
no-op, the in-memory username, the store and the set of sent frames
all unchanged; a name with nonempty trim is stored in memory and in
the persisted store, and the set-username frame is sent exactly when
the socket is open. -/
theorem c7_set_username_rejects_blank :
    (∀ s store name, jsTrim name = "" →
      updateUsername s store name = (s, store, [])) ∧
    (∀ s store name, jsTrim name ≠ "" →
      (updateUsername s store name).1.username = name ∧
      (updateUsername s store name).2.1 =
        Store.set store "progress-username" name ∧
      (wsIsOpen s = true →
        (updateUsername s store name).2.2 = [ClientMsg.setUsernameMsg name]) ∧
      (wsIsOpen s = false → (updateUsername s store name).2.2 = [])) := by
  constructor
  · intro s store name h
    simp [updateUsername, h]
  · intro s store name h
    refine ⟨?_, ?_, ?_, ?_⟩
    · simp [updateUsername, h, wsIsOpen]
      split <;> rfl
    · simp [updateUsername, h, wsIsOpen]
      split <;> rfl
    · intro hopen
      simp [updateUsername, h, wsIsOpen] at hopen ⊢
      simp [hopen]
    · intro hclosed
      simp [updateUsername, h, wsIsOpen] at hclosed ⊢
      simp [hclosed]

/-- Concrete instance of the C7 theorem: a one-space name is a no-op
on a connected state, and a real name is sent. -/
theorem c7_set_username_rejects_blank_witness :
    updateUsername connectedStateW [] " " = (connectedStateW, [], []) ∧
    (updateUsername connectedStateW [] "bob").2.2 =
      [ClientMsg.setUsernameMsg "bob"] :=
  ⟨c7_set_username_rejects_blank.1 connectedStateW [] " " (by decide),
   ((c7_set_username_rejects_blank.2 connectedStateW [] "bob"
      (by decide)).2.2).1 (by decide)⟩

/-- C8: getUserId and getUsername are idempotent over the persisted
store: a first call on a store without the key generates and persists
a value, a call on a store holding a truthy value returns it without
modifying the store, and a repeated call returns exactly the value and
store of the first call. -/
theorem c8_get_or_create_idempotent :
    (∀ now r store, Store.get store "progress-user-id" = none →
      getUserId now r store =
        (genUserId now r,
         Store.set store "progress-user-id" (genUserId now r))) ∧
    (∀ now r store v, Store.get store "progress-user-id" = some v → v ≠ "" →
      getUserId now r store = (v, store)) ∧
    (∀ now r now2 r2 store,
      getUserId now2 r2 (getUserId now r store).2 = getUserId now r store) ∧
    (∀ a b c store, Store.get store "progress-username" = none →
      getUsername a b c store =
        (generateUsername a b c,
         Store.set store "progress-username" (generateUsername a b c))) ∧
    (∀ a b c store v, Store.get store "progress-username" = some v → v ≠ "" →
      getUsername a b c store = (v, store)) ∧
    (∀ a b c a2 b2 c2 store,
      getUsername a2 b2 c2 (getUsername a b c store).2 =
        getUsername a b c store) := by
  refine ⟨?_, ?_, ?_, ?_, ?_, ?_⟩
  · intro now r store h
    simp [getUserId, h]
  · intro now r store v h hv
    simp [getUserId, h, hv]
  · intro now r now2 r2 store
    exact getUserId_stable now r now2 r2 store
  · intro a b c store h
    simp [getUsername, h]
  · intro a b c store v h hv
    simp [getUsername, h, hv]
  · intro a b c a2 b2 c2 store
    exact getUsername_stable a b c a2 b2 c2 store

/-- Concrete instance of the C8 theorem: a first call on the empty
store persists the generated id, and a second call changes nothing. -/
theorem c8_get_or_create_idempotent_witness :
    getUserId 1 "x" [] =
      (genUserId 1 "x", Store.set [] "progress-user-id" (genUserId 1 "x")) ∧
    getUserId 2 "y" (getUserId 1 "x" []).2 = getUserId 1 "x" [] :=
  ⟨c8_get_or_create_idempotent.1 1 "x" [] rfl,
   c8_get_or_create_idempotent.2.2.1 1 "x" 2 "y" []⟩

/-- The periodic sync builds its payload exactly as the on-connect
sync does. -/
theorem periodic_eq_onConnect (cfg : JsonCodec) (store : Store) (u : String) :
    periodicSyncPayload cfg store u = onConnectPayload cfg store u := rfl

/-- The change-triggered sync builds its payload exactly as the
on-connect sync does. -/
theorem change_eq_onConnect (cfg : JsonCodec) (store : Store) (u : String) :
    changeSyncPayload cfg store u = onConnectPayload cfg store u := rfl

/-- Without a stored progress value no sync payload is built. -/
theorem onConnectPayload_none_of_missing (cfg : JsonCodec) (store : Store)
    (u : String) (h : Store.get store "course-progress" = none) :
    onConnectPayload cfg store u = none := by
  unfold onConnectPayload
  simp [h]

/-- When the stored progress value does not parse no sync payload is
built. -/
theorem onConnectPayload_none_of_bad (cfg : JsonCodec) (store : Store)
    (u : String) (raw : String)
    (h : Store.get store "course-progress" = some raw)
    (hp : cfg.parseProgress raw = none) :
    onConnectPayload cfg store u = none := by
  unfold onConnectPayload
  by_cases he : raw = ""
  · simp [h, he]
  · simp [h, he, hp]

/-- Every sync payload that is built is a full-sync frame. -/
theorem onConnectPayload_isSyncFull (cfg : JsonCodec) (store : Store)
    (u : String) (m : ClientMsg) (h : onConnectPayload cfg store u = some m) :
    ClientMsg.isSyncFull m = true := by
  simp only [onConnectPayload] at h
  rcases hg : Store.get store "course-progress" with _ | raw <;>
    simp only [hg] at h
  · cases h
  · by_cases he : raw = ""
    · simp [he] at h
    · rw [if_neg he] at h
      rcases hp : cfg.parseProgress raw with _ | progress <;>
        simp only [hp] at h
      · cases h
      · rcases hc : Store.get store "study-cart" with _ | rawCart <;>
          simp only [hc] at h
        · cases h
          rfl
        · by_cases hce : rawCart = ""
          · rw [if_pos hce] at h
            cases h
            rfl
          · rw [if_neg hce] at h
            rcases hpc : cfg.parseCart rawCart with _ | items <;>
              simp only [hpc] at h
            · cases h
            · cases h
              rfl

/-- The periodic sync tick never modifies the store. -/
theorem periodicSyncTick_fst (cfg : JsonCodec) (s : ClientState)
    (store : Store) : (periodicSyncTick cfg s store).1 = store := by
  unfold periodicSyncTick
  split
  · split <;> rfl
  · rfl

/-- The change-triggered sync tick never modifies the store. -/
theorem changeSyncTick_fst (cfg : JsonCodec) (s : ClientState)
    (store : Store) (key : String) :
    (changeSyncTick cfg s store key).1 = store := by
  unfold changeSyncTick
  split
  · split
    · split <;> rfl
    · rfl
  · rfl

/-- The frames of the open handler are the optional sync frame
followed by one leaderboard request. -/
theorem handleOpen_msgs_some (cfg : JsonCodec) (cid : String) (store : Store)
    (s : ClientState) (m : ClientMsg)
    (h : onConnectPayload cfg store s.username = some m) :
    (handleOpen cfg cid store s).2.2 =
      [m, ClientMsg.requestLeaderboardMsg cid] := by
  unfold handleOpen
  simp [h]

/-- Without a sync payload the open handler sends only the leaderboard
request. -/
theorem handleOpen_msgs_none (cfg : JsonCodec) (cid : String) (store : Store)
    (s : ClientState) (h : onConnectPayload cfg store s.username = none) :
    (handleOpen cfg cid store s).2.2 =
      [ClientMsg.requestLeaderboardMsg cid] := by
  unfold handleOpen
  simp [h]

/-- A full-sync frame is not a progress-update frame. -/
theorem not_progressUpdate_of_syncFull (m : ClientMsg)
    (h : ClientMsg.isSyncFull m = true) :
    ClientMsg.isProgressUpdate m = false := by
  cases m <;> simp_all [ClientMsg.isSyncFull, ClientMsg.isProgressUpdate]

/-- A full-sync frame is not a leaderboard-request frame. -/
theorem not_requestLeaderboard_of_syncFull (m : ClientMsg)
    (h : ClientMsg.isSyncFull m = true) :
    ClientMsg.isRequestLeaderboard m = false := by
  cases m <;> simp_all [ClientMsg.isSyncFull, ClientMsg.isRequestLeaderboard]

/-- C1 counterexample: on a store holding no progress snapshot, the
transition into the connected state sends only the leaderboard request
and zero full-sync frames, refuting the unconditional claim that every
such transition sends one full-sync frame. -/
theorem c1_counterexample :
    (handleOpen cfgNoneCodec "cs101" [] initClientState).2.2 =
      [ClientMsg.requestLeaderboardMsg "cs101"] ∧
    ((handleOpen cfgNoneCodec "cs101" [] initClientState).2.2.countP
      ClientMsg.isSyncFull) = 0 := by
  constructor <;> rfl

/-- C1 as amended: on every transition into the connected state the
pending queue is reset to empty, no queued progress update frame is
ever transmitted, exactly one leaderboard request for the active
course is sent, and one full-sync frame built from the persisted
snapshot is sent exactly when that snapshot is present and parses. -/
theorem c1_connected_entry (cfg : JsonCodec) (cid : String) (store : Store)
    (s : ClientState) :
    (handleOpen cfg cid store s).1.pendingUpdates = [] ∧
    (handleOpen cfg cid store s).1.isConnected = true ∧
    (∀ m ∈ (handleOpen cfg cid store s).2.2,
      ClientMsg.isProgressUpdate m = false) ∧
    (handleOpen cfg cid store s).2.2.filter ClientMsg.isRequestLeaderboard =
      [ClientMsg.requestLeaderboardMsg cid] ∧
    (∀ m, onConnectPayload cfg store s.username = some m →
      (handleOpen cfg cid store s).2.2 =
        [m, ClientMsg.requestLeaderboardMsg cid] ∧
      ClientMsg.isSyncFull m = true) ∧
    (onConnectPayload cfg store s.username = none →
      (handleOpen cfg cid store s).2.2 =
        [ClientMsg.requestLeaderboardMsg cid]) := by
  cases hp : onConnectPayload cfg store s.username with
  | none =>
    have e := handleOpen_msgs_none cfg cid store s hp
    refine ⟨rfl, rfl, ?_, ?_, ?_, fun _ => e⟩
    · intro m hm
      rw [e] at hm
      simp only [List.mem_singleton] at hm
      subst hm
      rfl
    · rw [e]
      rfl
    · intro m hmm
      cases hmm
  | some m0 =>
    have e := handleOpen_msgs_some cfg cid store s m0 hp
    have hsf := onConnectPayload_isSyncFull cfg store s.username m0 hp
    refine ⟨rfl, rfl, ?_, ?_, ?_, ?_⟩
    · intro m hm
      rw [e] at hm
      rcases List.mem_cons.mp hm with h1 | h1
      · rw [h1]
        exact not_progressUpdate_of_syncFull m0 hsf
      · simp only [List.mem_singleton] at h1
        subst h1
        rfl
    · rw [e]
      have hnr := not_requestLeaderboard_of_syncFull m0 hsf
      simp only [List.filter_cons, hnr]
      simp [ClientMsg.isRequestLeaderboard]
    · intro m hmm
      cases hmm
      exact ⟨e, hsf⟩
    · intro h0
      cases h0

/-- Concrete instance of the C1 theorem: with a parseable stored
snapshot, entering the connected state sends the full sync followed by
the leaderboard request, with an empty pending queue left. -/
theorem c1_connected_entry_witness :
    (handleOpen cfgOneCodec "cs101" [("course-progress", "p")]
      initClientState).2.2 =
      [ClientMsg.syncFullProgressMsg progW [] "",
       ClientMsg.requestLeaderboardMsg "cs101"] ∧
    (handleOpen cfgOneCodec "cs101" [("course-progress", "p")]
      initClientState).1.pendingUpdates = [] :=
  have h := c1_connected_entry cfgOneCodec "cs101" [("course-progress", "p")]
    initClientState
  ⟨(h.2.2.2.2.1 (ClientMsg.syncFullProgressMsg progW [] "") rfl).1, h.1⟩

/-- C2 counterexample: at one concrete store and state, the on-connect
sync builds a full-sync frame while the leaderboard poll sends a
leaderboard request, and the two frames differ, refuting the claim
that all four triggers build an identical payload. -/
theorem c2_counterexample :
    onConnectPayload cfgOneCodec [("course-progress", "p")] "alice" =
      some (ClientMsg.syncFullProgressMsg progW [] "alice") ∧
    pollTick "cs101" connectedStateW =
      [ClientMsg.requestLeaderboardMsg "cs101"] ∧
    (ClientMsg.syncFullProgressMsg progW [] "alice" : ClientMsg) ≠
      ClientMsg.requestLeaderboardMsg "cs101" :=
  ⟨rfl, rfl, by decide⟩

/-- C2 as amended: the three full-sync triggers, on-connect, periodic
and change-triggered, build extensionally equal payloads from any
persisted store, while the fourth trigger, the leaderboard poll, sends
only a leaderboard request for the active course. -/
theorem c2_sync_payloads_agree (cfg : JsonCodec) (store : Store)
    (u : String) :
    periodicSyncPayload cfg store u = onConnectPayload cfg store u ∧
    changeSyncPayload cfg store u = onConnectPayload cfg store u ∧
    (∀ cid s, pollTick cid s = [] ∨
      pollTick cid s = [ClientMsg.requestLeaderboardMsg cid]) := by
  refine ⟨periodic_eq_onConnect cfg store u, change_eq_onConnect cfg store u,
    ?_⟩
  intro cid s
  unfold pollTick
  split
  · right
    rfl
  · left
    rfl

/-- C3 counterexample: from a dropped state whose reconnect timer
fires into a throwing connection constructor, the catch branch leaves
the client disconnected with no scheduled reconnection, refuting the
claim that a new attempt is always scheduled after a connection
error. -/
theorem c3_counterexample :
    (fireReconnectTimer false droppedStateW).reconnectDelayMs = none ∧
    (fireReconnectTimer false droppedStateW).isConnected = false ∧
    (fireReconnectTimer false droppedStateW).ws = some WsReady.closedSt :=
  ⟨rfl, rfl, rfl⟩

/-- C3 as amended: after every session close, whatever the prior
history, exactly one reconnection is scheduled at the fixed
three-second delay, with no backoff and no retry cap; and a firing of
that timer whose constructor succeeds consumes the timer and starts
exactly one new connection attempt. A synchronous constructor failure,
however, schedules nothing. -/
theorem c3_reconnect_after_close :
    (∀ cfg cid store s0 evts,
      (run cfg cid store s0 (evts ++ [Event.closeEvt])).reconnectDelayMs =
        some 3000 ∧
      (run cfg cid store s0 (evts ++ [Event.closeEvt])).isConnected =
        false) ∧
    (∀ s u, s.userId = some u → u ≠ "" →
      (fireReconnectTimer true s).reconnectDelayMs = none ∧
      (s.reconnectDelayMs ≠ none →
        (fireReconnectTimer true s).ws = some WsReady.connecting)) := by
  constructor
  · intro cfg cid store s0 evts
    rw [run, List.foldl_append]
    exact ⟨rfl, rfl⟩
  · intro s u hu hne
    cases hd : s.reconnectDelayMs with
    | none =>
      refine ⟨?_, ?_⟩
      · simp [fireReconnectTimer, hd]
      · intro hcon
        exact absurd rfl hcon
    | some d =>
      refine ⟨?_, fun _ => ?_⟩
      · simp [fireReconnectTimer, hd, connectAttempt, hu, hne]
      · simp [fireReconnectTimer, hd, connectAttempt, hu, hne]

/-- Concrete instance of the C3 theorem: one close event schedules the
three-second reconnect, and its firing consumes the timer. -/
theorem c3_reconnect_after_close_witness :
    (run cfgNoneCodec "cs101" [] initClientState
      [Event.closeEvt]).reconnectDelayMs = some 3000 ∧
    (fireReconnectTimer true droppedStateW).reconnectDelayMs = none :=
  ⟨(c3_reconnect_after_close.1 cfgNoneCodec "cs101" [] initClientState []).1,
   (c3_reconnect_after_close.2 droppedStateW "u1" rfl (by decide)).1⟩

/-- C4: while the socket is not open, an attempted progress update is
appended to the pending queue and not sent, and every other attempted
outbound message is silently dropped, neither sent nor queued. -/
theorem c4_offline_send_drops_or_queues (s : ClientState)
    (h : wsIsOpen s = false) :
    (∀ cid fk b,
      (sendProgressUpdate cid s fk b).2 = [] ∧
      (sendProgressUpdate cid s fk b).1.pendingUpdates =
        s.pendingUpdates ++
          [{ courseId := cid, fileKey := fk, isComplete := b }]) ∧
    (∀ store name,
      (updateUsername s store name).2.2 = [] ∧
      (updateUsername s store name).1.pendingUpdates = s.pendingUpdates) ∧
    (∀ cid, requestLeaderboardUpdate cid s = (s, [])) ∧
    (∀ cid fks, syncStudyItemsCall cid s fks = (s, [])) ∧
    (∀ p si, syncFullProgressCall s p si = (s, [])) := by
  refine ⟨?_, ?_, ?_, ?_, ?_⟩
  · intro cid fk b
    constructor <;> simp [sendProgressUpdate, h]
  · intro store name
    by_cases ht : jsTrim name = ""
    · simp [updateUsername, ht]
    · have hws : wsIsOpen { s with username := name } = false := by
        simpa [wsIsOpen] using h
      constructor <;> simp [updateUsername, ht, hws]
  · intro cid
    simp [requestLeaderboardUpdate, h]
  · intro cid fks
    simp [syncStudyItemsCall, h]
  · intro p si
    simp [syncFullProgressCall, h]

/-- Concrete instance of the C4 theorem on the initial disconnected
state: the progress update is queued without a send, the leaderboard
request is dropped. -/
theorem c4_offline_send_drops_or_queues_witness :
    (sendProgressUpdate "cs101" initClientState "f1" true).2 = [] ∧
    (sendProgressUpdate "cs101" initClientState "f1" true).1.pendingUpdates =
      [{ courseId := "cs101", fileKey := "f1", isComplete := true }] ∧
    requestLeaderboardUpdate "cs101" initClientState =
      (initClientState, []) := by
  have h := c4_offline_send_drops_or_queues initClientState (by decide)
  refine ⟨(h.1 "cs101" "f1" true).1, ?_, h.2.2.1 "cs101"⟩
  have h2 := (h.1 "cs101" "f1" true).2
  simpa [initClientState] using h2

/-- C5: every sync cycle threads the persisted store through
unchanged, only reading it, and when the stored progress is absent or
fails to parse, the cycle sends no full-sync frame and raises no
error: the periodic and change-triggered cycles send nothing at
all. -/
theorem c5_sync_cycles_read_only (cfg : JsonCodec) (cid : String)
    (store : Store) (s : ClientState) (key : String) :
    (handleOpen cfg cid store s).2.1 = store ∧
    (periodicSyncTick cfg s store).1 = store ∧
    (changeSyncTick cfg s store key).1 = store ∧
    (Store.get store "course-progress" = none →
      ((handleOpen cfg cid store s).2.2.filter ClientMsg.isSyncFull = [] ∧
       (periodicSyncTick cfg s store).2 = [] ∧
       (changeSyncTick cfg s store key).2 = [])) ∧
    (∀ raw, Store.get store "course-progress" = some raw →
      cfg.parseProgress raw = none →
      ((handleOpen cfg cid store s).2.2.filter ClientMsg.isSyncFull = [] ∧
       (periodicSyncTick cfg s store).2 = [] ∧
       (changeSyncTick cfg s store key).2 = [])) := by
  have hmain : onConnectPayload cfg store s.username = none →
      ((handleOpen cfg cid store s).2.2.filter ClientMsg.isSyncFull = [] ∧
       (periodicSyncTick cfg s store).2 = [] ∧
       (changeSyncTick cfg s store key).2 = []) := by
    intro hnone
    refine ⟨?_, ?_, ?_⟩
    · rw [handleOpen_msgs_none cfg cid store s hnone]
      rfl
    · unfold periodicSyncTick
      rw [periodic_eq_onConnect, hnone]
      split <;> rfl
    · unfold changeSyncTick
      rw [change_eq_onConnect, hnone]
      split
      · split <;> rfl
      · rfl
  refine ⟨rfl, periodicSyncTick_fst cfg s store,
    changeSyncTick_fst cfg s store key, ?_, ?_⟩
  · intro hmiss
    exact hmain (onConnectPayload_none_of_missing cfg store s.username hmiss)
  · intro raw hsome hbad
    exact hmain (onConnectPayload_none_of_bad cfg store s.username raw
      hsome hbad)

/-- Concrete instance of the C5 theorem: an unparseable stored
snapshot leaves the store untouched and produces no frame on the
periodic cycle. -/
theorem c5_sync_cycles_read_only_witness :
    (periodicSyncTick cfgNoneCodec connectedStateW
      [("course-progress", "bad")]).1 = [("course-progress", "bad")] ∧
    (periodicSyncTick cfgNoneCodec connectedStateW
      [("course-progress", "bad")]).2 = [] :=
  have h := c5_sync_cycles_read_only cfgNoneCodec "cs101"
    [("course-progress", "bad")] connectedStateW "course-progress"
  ⟨h.2.1, (h.2.2.2.2 "bad" rfl rfl).2.1⟩

/-- C6: an inbound leaderboard update replaces the cached leaderboard
exactly when its course id is the displayed course, an update for a
different course and every other inbound frame leave it unchanged, and
an unparseable payload is discarded without closing the session or
changing any state. -/
theorem c6_leaderboard_update_iff (cid : String) (s : ClientState)
    (raw : Option InboundData) :
    (handleMessage cid s raw).ws = s.ws ∧
    (handleMessage cid s raw).isConnected = s.isConnected ∧
    (raw = none → handleMessage cid s raw = s) ∧
    (∀ lb, raw = some (InboundData.leaderboardUpdate cid lb) →
      (handleMessage cid s raw).leaderboard = lb) ∧
    (∀ c0 lb, c0 ≠ cid → raw = some (InboundData.leaderboardUpdate c0 lb) →
      (handleMessage cid s raw).leaderboard = s.leaderboard) ∧
    ((handleMessage cid s raw).leaderboard ≠ s.leaderboard →
      ∃ lb, raw = some (InboundData.leaderboardUpdate cid lb) ∧
        (handleMessage cid s raw).leaderboard = lb) := by
  cases raw with
  | none => simp [handleMessage]
  | some d =>
    cases d with
    | leaderboardUpdate c0 lb =>
      by_cases hc : c0 = cid
      · subst hc
        simp [handleMessage]
        intro c1 h1 h2
        exact absurd h2.symm h1
      · simp [handleMessage, hc]
    | connectedAck => simp [handleMessage]
    | otherType t => simp [handleMessage]

/-- Concrete instance of the C6 theorem: a matching leaderboard update
replaces the cache. -/
theorem c6_leaderboard_update_iff_witness :
    (handleMessage "cs101" connectedStateW
      (some (InboundData.leaderboardUpdate "cs101" [entryW]))).leaderboard =
      [entryW] :=
  (c6_leaderboard_update_iff "cs101" connectedStateW
    (some (InboundData.leaderboardUpdate "cs101" [entryW]))).2.2.2.1
    [entryW] rfl

/-- The findIndex model returns minus one or a nonnegative index. -/
theorem jsFindIndexLb_cases (p : LeaderboardEntry → Bool)
    (l : List LeaderboardEntry) :
    jsFindIndexLb p l = -1 ∨ 0 ≤ jsFindIndexLb p l := by
  induction l with
  | nil =>
    left
    rfl
  | cons e rest ih =>
    simp only [jsFindIndexLb]
    by_cases hpe : p e = true
    · rw [if_pos hpe]
      omega
    · rw [if_neg hpe]
      by_cases h1 : jsFindIndexLb p rest = -1
      · rw [if_pos h1]
        omega
      · rw [if_neg h1]
        rcases ih with h | h
        · exact absurd h h1
        · omega

/-- The findIndex model returns the length of the prefix before the
first match. -/
theorem jsFindIndexLb_first (p : LeaderboardEntry → Bool)
    (l1 : List LeaderboardEntry) (e : LeaderboardEntry)
    (l2 : List LeaderboardEntry) (hpe : p e = true)
    (hl1 : ∀ x ∈ l1, p x = false) :
    jsFindIndexLb p (l1 ++ e :: l2) = (l1.length : Int) := by
  induction l1 with
  | nil =>
    simp [jsFindIndexLb, hpe]
  | cons a rest ih =>
    have ha : p a = false := hl1 a (List.mem_cons_self a rest)
    have hrest : ∀ x ∈ rest, p x = false :=
      fun x hx => hl1 x (List.mem_cons_of_mem a hx)
    have ihr := ih hrest
    rw [List.cons_append]
    simp only [jsFindIndexLb, ha, Bool.false_eq_true, if_false]
    rw [ihr]
    rw [if_neg (by omega)]
    simp only [List.length_cons]
    omega

/-- The findIndex model returns minus one exactly when no element
matches. -/
theorem jsFindIndexLb_eq_neg_one_iff (p : LeaderboardEntry → Bool)
    (l : List LeaderboardEntry) :
    jsFindIndexLb p l = -1 ↔ ∀ x ∈ l, p x = false := by
  induction l with
  | nil => simp [jsFindIndexLb]
  | cons e rest ih =>
    simp only [jsFindIndexLb]
    by_cases hpe : p e = true
    · rw [if_pos hpe]
      constructor
      · intro h
        cases h
      · intro hall
        have := hall e (List.mem_cons_self e rest)
        rw [hpe] at this
        cases this
    · rw [if_neg hpe]
      have hef : p e = false := by
        cases hq : p e
        · rfl
        · exact absurd hq hpe
      by_cases h1 : jsFindIndexLb p rest = -1
      · rw [if_pos h1]
        simp only [List.mem_cons, true_iff]
        intro x hx
        rcases hx with h | h
        · rw [h]
          exact hef
        · exact (ih.mp h1) x h
      · rw [if_neg h1]
        constructor
        · intro hcon
          rcases jsFindIndexLb_cases p rest with h | h
          · exact absurd h h1
          · omega
        · intro hall
          have : jsFindIndexLb p rest = -1 :=
            ih.mpr (fun x hx => hall x (List.mem_cons_of_mem e hx))
          exact absurd this h1

/-- C9: with the user id the hook can actually hold, absent or a
nonempty string, the exposed rank is at least one whenever present,
equals one plus the index of the first leaderboard entry carrying the
user id, and is null exactly when the user id is uninitialized or no
entry carries it. -/
theorem c9_current_user_rank (uid : Option String)
    (l : List LeaderboardEntry) (huid : ∀ v, uid = some v → v ≠ "") :
    (∀ r, currentUserRank uid l = some r → 1 ≤ r) ∧
    (∀ u l1 e l2, uid = some u → l = l1 ++ e :: l2 → e.userId = u →
      (∀ x ∈ l1, x.userId ≠ u) →
      currentUserRank uid l = some ((l1.length : Int) + 1)) ∧
    (currentUserRank uid l = none ↔
      uid = none ∨ ∀ e ∈ l, ¬ uid = some e.userId) := by
  cases uid with
  | none =>
    refine ⟨?_, ?_, ?_⟩
    · intro r hr
      simp [currentUserRank, currentUserRankRaw] at hr
    · intro u l1 e l2 h
      cases h
    · simp [currentUserRank, currentUserRankRaw]
  | some u =>
    have hu : u ≠ "" := huid u rfl
    have hrank : currentUserRank (some u) l =
        (if jsFindIndexLb (fun e => e.userId == u) l + 1 > 0
         then some (jsFindIndexLb (fun e => e.userId == u) l + 1)
         else none) := by
      simp [currentUserRank, currentUserRankRaw, hu]
    refine ⟨?_, ?_, ?_⟩
    · intro r hr
      rw [hrank] at hr
      by_cases hpos : jsFindIndexLb (fun e => e.userId == u) l + 1 > 0
      · rw [if_pos hpos] at hr
        cases hr
        omega
      · rw [if_neg hpos] at hr
        cases hr
    · intro u0 l1 e l2 hueq hleq hid hpre
      cases hueq
      subst hleq
      have hfi : jsFindIndexLb (fun x => x.userId == u) (l1 ++ e :: l2) =
          (l1.length : Int) := by
        apply jsFindIndexLb_first
        · simp [hid]
        · intro x hx
          simp [hpre x hx]
      rw [hrank, hfi, if_pos (by omega)]
    · rw [hrank]
      constructor
      · intro hnone
        right
        by_cases hpos : jsFindIndexLb (fun e => e.userId == u) l + 1 > 0
        · rw [if_pos hpos] at hnone
          cases hnone
        · have hneg : jsFindIndexLb (fun e => e.userId == u) l = -1 := by
            rcases jsFindIndexLb_cases (fun e => e.userId == u) l with h | h
            · exact h
            · omega
          intro e he heq
          have hfalse := (jsFindIndexLb_eq_neg_one_iff
            (fun e => e.userId == u) l).mp hneg e he
          simp only [beq_eq_false_iff_ne] at hfalse
          exact hfalse (Option.some.inj heq).symm
      · intro hor
        rcases hor with h | h
        · cases h
        · have hall : ∀ x ∈ l, (x.userId == u) = false := by
            intro x hx
            simp only [beq_eq_false_iff_ne]
            intro hxeq
            exact h x hx (by rw [hxeq])
          have hneg := (jsFindIndexLb_eq_neg_one_iff
            (fun e => e.userId == u) l).mpr hall
          rw [hneg]
          rfl

/-- Concrete instance of the C9 theorem: the sole matching entry gets
rank one. -/
theorem c9_current_user_rank_witness :
    currentUserRank (some "u1") [entryW] = some 1 := by
  have h := c9_current_user_rank (some "u1") [entryW]
    (fun v hv => by cases hv; decide)
  have h2 := h.2.1 "u1" [] entryW [] rfl rfl rfl
    (fun x hx => absurd hx (List.not_mem_nil x))
  simpa using h2

/-- Lookup of the key at the head of a study items map. -/
theorem lookupStudyItems_cons_self (k : String) (fs : List String)
    (rest : StudyItemsMap) :
    lookupStudyItems ((k, fs) :: rest) k = some fs := by
  simp [lookupStudyItems, List.find?]

/-- Lookup skips a head holding a different key. -/
theorem lookupStudyItems_cons_ne (k c : String) (h : k ≠ c)
    (fs : List String) (rest : StudyItemsMap) :
    lookupStudyItems ((k, fs) :: rest) c = lookupStudyItems rest c := by
  rw [lookupStudyItems, lookupStudyItems, List.find?_cons_of_neg]
  simp [h]

/-- Inserting a file key appends it to the list of the inserted
course. -/
theorem lookupStudyItems_insert_self (m : StudyItemsMap) (c f : String) :
    lookupStudyItems (insertStudyItem m c f) c =
      some ((lookupStudyItems m c).getD [] ++ [f]) := by
  induction m with
  | nil =>
    rw [insertStudyItem, lookupStudyItems_cons_self]
    simp [lookupStudyItems]
  | cons kv rest ih =>
    obtain ⟨k, fs⟩ := kv
    by_cases hk : k = c
    · subst hk
      rw [insertStudyItem, if_pos (by simp), lookupStudyItems_cons_self,
        lookupStudyItems_cons_self]
      rfl
    · rw [insertStudyItem, if_neg (by simp [hk]),
        lookupStudyItems_cons_ne k c hk, lookupStudyItems_cons_ne k c hk]
      exact ih

/-- Inserting a file key leaves every other course unchanged. -/
theorem lookupStudyItems_insert_ne (m : StudyItemsMap) (c f c0 : String)
    (h : c0 ≠ c) :
    lookupStudyItems (insertStudyItem m c f) c0 = lookupStudyItems m c0 := by
  induction m with
  | nil =>
    rw [insertStudyItem, lookupStudyItems_cons_ne c c0 (Ne.symm h)]
  | cons kv rest ih =>
    obtain ⟨k, fs⟩ := kv
    by_cases hk : k = c
    · subst hk
      rw [insertStudyItem, if_pos (by simp),
        lookupStudyItems_cons_ne k c0 (fun he => h (he.symm)),
        lookupStudyItems_cons_ne k c0 (fun he => h (he.symm))]
    · rw [insertStudyItem, if_neg (by simp [hk])]
      by_cases hkc : k = c0
      · subst hkc
        rw [lookupStudyItems_cons_self, lookupStudyItems_cons_self]
      · rw [lookupStudyItems_cons_ne k c0 hkc,
          lookupStudyItems_cons_ne k c0 hkc]
        exact ih

/-- Invariant of the study-items accumulation loop: after folding the
cart into any accumulator, the list of a course is the accumulator
entry extended by the truthy keys of that course, in cart order. -/
theorem buildStudyItems_lookup_go (items : List StudyItem)
    (acc : StudyItemsMap) (c : String) :
    lookupStudyItems (items.foldl studyItemsStep acc) c =
      (match lookupStudyItems acc c with
       | some fs => some (fs ++ truthyKeysFor c items)
       | none =>
         if truthyKeysFor c items = [] then none
         else some (truthyKeysFor c items)) := by
  induction items generalizing acc with
  | nil =>
    simp only [List.foldl_nil, truthyKeysFor, List.filterMap_nil]
    cases lookupStudyItems acc c <;> simp
  | cons item rest ih =>
    rw [List.foldl_cons, ih (studyItemsStep acc item)]
    rcases hci : item.courseId with _ | c0
    · have hs : studyItemsStep acc item = acc := by
        simp [studyItemsStep, hci]
      have ht : truthyKeysFor c (item :: rest) = truthyKeysFor c rest := by
        simp [truthyKeysFor, List.filterMap_cons, hci]
      rw [hs, ht]
    · rcases hfk : item.fileKey with _ | f
      · have hs : studyItemsStep acc item = acc := by
          simp [studyItemsStep, hci, hfk]
        have ht : truthyKeysFor c (item :: rest) = truthyKeysFor c rest := by
          simp [truthyKeysFor, List.filterMap_cons, hci, hfk]
        rw [hs, ht]
      · by_cases htr : c0 ≠ "" ∧ f ≠ ""
        · have hs : studyItemsStep acc item = insertStudyItem acc c0 f := by
            simp [studyItemsStep, hci, hfk, htr]
          by_cases hcc : c0 = c
          · subst hcc
            have ht : truthyKeysFor c0 (item :: rest) =
                f :: truthyKeysFor c0 rest := by
              simp [truthyKeysFor, List.filterMap_cons, hci, hfk, htr]
            rw [hs, ht, lookupStudyItems_insert_self]
            cases hacc : lookupStudyItems acc c0 with
            | none => simp
            | some fs => simp
          · have ht : truthyKeysFor c (item :: rest) =
                truthyKeysFor c rest := by
              have hnc : ¬(c0 = c ∧ c0 ≠ "" ∧ f ≠ "") := fun hx => hcc hx.1
              simp [truthyKeysFor, List.filterMap_cons, hci, hfk, hnc]
            rw [hs, ht,
              lookupStudyItems_insert_ne acc c0 f c (fun he => hcc he.symm)]
        · have hs : studyItemsStep acc item = acc := by
            simp only [studyItemsStep, hci, hfk]
            rw [if_neg htr]
          have ht : truthyKeysFor c (item :: rest) = truthyKeysFor c rest := by
            have hnc : ¬(c0 = c ∧ c0 ≠ "" ∧ f ≠ "") := fun hx => htr hx.2
            simp [truthyKeysFor, List.filterMap_cons, hci, hfk, hnc]
          rw [hs, ht]

/-- C10 counterexample: a cart item carrying both linkage fields, with
an empty-string course id, contributes nothing to the built study
items map, refuting the claim that every item with both fields
present is included. -/
theorem c10_counterexample :
    cartItemW.courseId.isSome = true ∧ cartItemW.fileKey.isSome = true ∧
    buildStudyItems [cartItemW] = [] :=
  ⟨rfl, rfl, rfl⟩

/-- C10 as amended: for every course, the built study items map holds
exactly the file keys of the cart items whose courseId and fileKey are
both present and nonempty and name that course, in cart order, and
holds no entry for a course receiving no such key; items missing
either field or holding an empty string in it are silently
excluded. -/
theorem c10_study_items_from_cart (items : List StudyItem) (c : String) :
    lookupStudyItems (buildStudyItems items) c =
      (if truthyKeysFor c items = [] then none
       else some (truthyKeysFor c items)) := by
  rw [buildStudyItems, buildStudyItems_lookup_go]
  rfl
